import Mathlib

/-! Verification of the context-extraction engine of the static-code-analysis
review tool (src/core/context_builder.py and src/utils/file_utils.py),
shallowly embedded in Lean.

A source file's text content is modelled as a `List String`: the sequence of
line contents, none of which contains a newline character.  A possibly
unreadable file is an `Option (List String)` (`none` = the file cannot be
opened or decoded).  Python string primitives used by the code
(`'\n'.join`, `str.split('\n')`, `str.rstrip('\n')`, `str.strip()`,
`str.startswith`, `str.endswith`, `str.count`) are given explicit
character-list implementations so that every theorem is about executable
definitions.
-/

/-- Python `\s` whitespace on ASCII text (space, tab, newline, CR, VT, FF). -/
def pyIsSpace (c : Char) : Bool :=
  c = ' ' || c = '\t' || c = '\n' || c = '\r' || c = '\x0b' || c = '\x0c'

/-- Predicate `isPre p l` : the char list `p` is an initial segment of `l`. -/
def isPre : List Char → List Char → Bool
  | [], _ => true
  | _ :: _, [] => false
  | a :: as, b :: bs => a = b && isPre as bs

/-- Predicate `containsSub n h` : the char list `n` occurs contiguously inside `h`. -/
def containsSub (n : List Char) : List Char → Bool
  | [] => n.isEmpty
  | c :: cs => isPre n (c :: cs) || containsSub n cs

/-- Model of Python `needle in hay` as `strContains hay needle`. -/
def strContains (hay needle : String) : Bool :=
  containsSub needle.data hay.data

/-- Python `s.startswith(pre)`. -/
def strStarts (s pre : String) : Bool :=
  isPre pre.data s.data

/-- Python `s.endswith(suf)`. -/
def strEnds (s suf : String) : Bool :=
  isPre suf.data.reverse s.data.reverse

/-- Remove all trailing `'\n'` characters from a char list. -/
def dropTrailNl (l : List Char) : List Char :=
  (l.reverse.dropWhile (fun c => c = '\n')).reverse

/-- Python `s.rstrip('\n')`. -/
def rstripNl (s : String) : String :=
  String.mk (dropTrailNl s.data)

/-- Python `str.strip()` (both-ends whitespace strip). -/
def pyStrip (s : String) : String :=
  String.mk (((s.data.dropWhile pyIsSpace).reverse.dropWhile pyIsSpace).reverse)

/-- Join char-list lines with a single `'\n'` between consecutive lines. -/
def joinNlC : List (List Char) → List Char
  | [] => []
  | [x] => x
  | x :: y :: t => x ++ '\n' :: joinNlC (y :: t)

/-- Python `'\n'.join(lines)` on strings. -/
def pyJoinNl (l : List String) : String :=
  String.mk (joinNlC (l.map String.data))

/-- Split a char list at every occurrence of the character `c`
(Python `str.split(c)`: `[] ↦ [[]]`, separators produce empty pieces). -/
def splitCharL (c : Char) : List Char → List (List Char)
  | [] => [[]]
  | x :: xs =>
    let r := splitCharL c xs
    if x = c then [] :: r
    else
      match r with
      | h :: t => (x :: h) :: t
      | [] => [[x]]

/-- Python `s.split('\n')`. -/
def pySplitNl (s : String) : List String :=
  (splitCharL '\n' s.data).map String.mk

/-- Python `s.count(ch)` for a single character. -/
def countChar (c : Char) (s : String) : Nat :=
  s.data.count c

/-- Python `''.join(parts)`. -/
def pyConcat (l : List String) : String :=
  l.foldl (fun a b => a ++ b) ""

/-! Embedding of src/utils/file_utils.py -/

/-- Oracle model of the `os.path` calls made by `is_path_safe`.  Each call
either returns a value or raises (`none`); the `try/except` in the source
turns any raise into `False`. -/
structure PyFS where
  abspath : String → Option String
  path_exists : String → Option Bool
  isfile : String → Option Bool
  islink : String → Option Bool

/-- Model of `is_path_safe(file_path, project_root)` from src/utils/file_utils.py:
the path is safe iff its absolute form exists, textually starts with the
absolute project root, is a regular file and is not a symlink; any raised
error yields `False`. -/
def is_path_safe (fs : PyFS) (file_path project_root : String) : Bool :=
  match fs.abspath file_path with
  | none => false
  | some abs_file_path =>
    match fs.abspath project_root with
    | none => false
    | some abs_project_root =>
      match fs.path_exists abs_file_path with
      | none => false
      | some ex =>
        if !ex then false
        else if !(strStarts abs_file_path abs_project_root) then false
        else
          match fs.isfile abs_file_path with
          | none => false
          | some f =>
            if !f then false
            else
              match fs.islink abs_file_path with
              | none => false
              | some l => if l then false else true

/-- Model of `read_file_lines(file_path, start_line, end_line)` from
src/utils/file_utils.py: clamp `start_line` to at least 1, `end_line` to at
least `start_line` and then to the file's line count, take the inclusive
1-based slice, join it (each kept line contributing its original newline)
and strip all trailing newlines; an unreadable file gives `none`. -/
def read_file_lines (file : Option (List String)) (start_line end_line : Nat) :
    Option String :=
  match file with
  | none => none
  | some lines =>
    let s := max 1 start_line
    let e := max s end_line
    let e := min e lines.length
    let selected := (lines.drop (s - 1)).take (e - (s - 1))
    some (rstripNl (pyJoinNl selected))

/-- Model of `read_file_lines(path, 1, float('inf'))` as used by the include-graph
strategy: the infinite upper bound clamps to the file's line count. -/
def readAllLines (file : Option (List String)) : Option String :=
  match file with
  | none => none
  | some lines => read_file_lines (some lines) 1 lines.length

/-! Embedding of ContextBuilder._build_fixed_lines_context -/

/-- Model of `_build_fixed_lines_context(file_path, line_number, lines_before,
lines_after)`: window `[max(1, line-before), line+after]` read through
`read_file_lines`, then every split line prefixed with its absolute 1-based
number and `": "`.  `none` exactly when the read fails. -/
def build_fixed_lines_context (file : Option (List String)) (line_number : Nat)
    (lines_before lines_after : Nat) : Option String :=
  let start_line := max 1 (line_number - lines_before)
  let end_line := line_number + lines_after
  match read_file_lines file start_line end_line with
  | none => none
  | some context =>
    let lines := pySplitNl context
    let numbered := lines.enum.map
      (fun p => Nat.repr (start_line + p.1) ++ ": " ++ p.2)
    some (pyJoinNl numbered)

/-! Embedding of ContextBuilder._build_function_scope_context.

The backward scan of the source uses
`re.search(r'(\w+\s+)+\w+\s*\([^)]*\)\s*({|$)', line)` on the stripped
line.  Because `\w`, `\s`, `[^)]`, `(`, `)`, `{` are pairwise disjoint
character classes, greedy matching with backtracking is equivalent to the
deterministic maximal-run matcher implemented below; `$` can only match at
the end of the (newline-free) stripped line. -/

/-- Python `\w` on ASCII text: letters, digits, underscore. -/
def isWordChar (c : Char) : Bool :=
  c.isAlphanum || c = '_'

/-- After the closing `)` of the signature pattern: `\s*` then `{` or
end of string. -/
def matchTail : List Char → Bool
  | [] => true
  | c :: cs => if c = '{' then true else if pyIsSpace c then matchTail cs else false

/-- Inside the parenthesis: `[^)]*` then `)` then the tail. -/
def parenScan : List Char → Bool
  | [] => false
  | c :: cs => if c = ')' then matchTail cs else parenScan cs

/-- The `\([^)]*\)\s*({|$)` part of the signature pattern. -/
def matchParen : List Char → Bool
  | '(' :: cs => parenScan cs
  | _ => false

/-- The `(\w+\s+)+\w+\s*\(…` part: alternating maximal word/space runs;
`hadBlock` records whether at least one `\w+\s+` block has been consumed.
The fuel argument only serves termination; each step consumes at least
one character, so `l.length + 1` fuel is always enough. -/
def matchBlocks : Nat → Bool → List Char → Bool
  | 0, _, _ => false
  | fuel + 1, hadBlock, l =>
    let w := l.takeWhile isWordChar
    let r1 := l.dropWhile isWordChar
    if w.isEmpty then false
    else
      let sp := r1.takeWhile pyIsSpace
      let r2 := r1.dropWhile pyIsSpace
      (hadBlock && matchParen r2) || (!sp.isEmpty && matchBlocks fuel true r2)

/-- A match of the whole signature pattern starting exactly here. -/
def matchStart (l : List Char) : Bool :=
  matchBlocks (l.length + 1) false l

/-- Model of `re.search`: a match starting at any position. -/
def sigSearch : List Char → Bool
  | [] => false
  | c :: cs => matchStart (c :: cs) || sigSearch cs

/-- Model of `re.search(r'(\w+\s+)+\w+\s*\([^)]*\)\s*({|$)', line)` as a Boolean. -/
def sigMatch (line : String) : Bool :=
  sigSearch line.data

/-- The inner `while j > 0` walk of the backward scan: step past attached
comment/blank/declaration boundary lines to the true start of the
function. -/
def walkBack (wl : List String) : Nat → Nat
  | 0 => 0
  | j + 1 =>
    let prev := pyStrip (wl.getD j "")
    if prev = "" || strStarts prev "//" || strStarts prev "/*" || strEnds prev ";"
    then j + 1
    else walkBack wl j

/-- The backward scan of `_build_function_scope_context` (window line index
`i` descending to 0, running brace count `bc`): a line containing `{` that
matches the signature pattern fixes the function start via `walkBack`;
otherwise `{` counts accumulate, and a line containing `}` or ending in
`;` aborts the scan once the running count is non-positive. -/
def scanBack (wl : List String) : Nat → Int → Option Nat
  | i, bc =>
    let line := pyStrip (wl.getD i "")
    if 0 < countChar '{' line && sigMatch line then some (walkBack wl i)
    else
      let bc1 := if 0 < countChar '{' line then bc + countChar '{' line else bc
      if 0 < countChar '}' line || strEnds line ";" then
        let bc2 := bc1 - countChar '}' line
        if bc2 ≤ 0 then none
        else match i with
          | 0 => none
          | j + 1 => scanBack wl j bc2
      else match i with
        | 0 => none
        | j + 1 => scanBack wl j bc1

/-- The forward scan: from the function start, accumulate `{`/`}` counts of
the raw window lines; the first index strictly after the start where the
count returns to exactly zero is the function end.  The fuel argument
models the loop bound `range(func_start_idx, len(lines))`; it is called
with `wl.length` fuel, which covers every iteration of the Python loop. -/
def scanFwd (wl : List String) (s : Nat) : Nat → Nat → Int → Option Nat
  | 0, _, _ => none
  | fuel + 1, i, bc =>
    if wl.length ≤ i then none
    else
      let line := wl.getD i ""
      let bc1 := bc + countChar '{' line - countChar '}' line
      if bc1 = 0 && s < i then some i
      else scanFwd wl s fuel (i + 1) bc1

/-- Model of `_build_function_scope_context(file_path, line_number, max_lines)` with
pass-through fixed-window options: read the `[line-50, line+200]` window;
an empty (falsy) window content returns `none`; find the function start by
the backward scan and the end by the forward scan, falling back to
`_build_fixed_lines_context` when the start or end is missing, when the
span exceeds `max_lines`, or when the backward scan's initial index is out
of range (the `IndexError` caught by the `except` clause).  On success the
span is returned with absolute line numbers. -/
def build_function_scope_context (file : Option (List String)) (line_number : Nat)
    (max_lines lines_before lines_after : Nat) : Option String :=
  let window_start := max 1 (line_number - 50)
  match read_file_lines file window_start (line_number + 200) with
  | none => none
  | some window_content =>
    if window_content = "" then none
    else
      let wl := pySplitNl window_content
      if line_number < window_start then
        build_fixed_lines_context file line_number lines_before lines_after
      else
        let i0 := min 50 (line_number - window_start)
        if wl.length ≤ i0 then
          build_fixed_lines_context file line_number lines_before lines_after
        else
          match scanBack wl i0 0 with
          | none => build_fixed_lines_context file line_number lines_before lines_after
          | some fs =>
            match scanFwd wl fs wl.length fs 0 with
            | none => build_fixed_lines_context file line_number lines_before lines_after
            | some fe =>
              if max_lines < fe - fs then
                build_fixed_lines_context file line_number lines_before lines_after
              else
                some (pyJoinNl ((List.range (fe + 1 - fs)).map
                  (fun k => Nat.repr (window_start + fs + k) ++ ": " ++ wl.getD (fs + k) "")))

-- plain text lines: backward scan finds no signature → fixed-window fallback

-- a window that is entirely empty lines: falsy window content → none

/-! Embedding of ContextBuilder._build_file_scope_context -/

/-- Model of `_build_file_scope_context(file_path, line_number, max_lines,
highlight_issue_line)` with pass-through fixed-window options: count the
file's lines; above `max_lines` delegate to the function-scope strategy
(which receives its own default `max_lines=100`, since the keyword was
bound by this strategy's parameter) and, if that yields `None`, to the
fixed-window strategy.  Otherwise read the whole file, return `none` on
falsy content, and number every split line, wrapping exactly the issue
line in `>>> … <<<` when highlighting is on.  An unreadable file raises in
`open()`, is caught, and falls back to the fixed-window strategy. -/
def build_file_scope_context (file : Option (List String)) (line_number : Nat)
    (max_lines : Nat) (highlight_issue_line : Bool)
    (lines_before lines_after : Nat) : Option String :=
  match file with
  | none => build_fixed_lines_context none line_number lines_before lines_after
  | some lines =>
    let file_line_count := lines.length
    if max_lines < file_line_count then
      match build_function_scope_context (some lines) line_number 100
              lines_before lines_after with
      | some context => some context
      | none =>
        build_fixed_lines_context (some lines) line_number lines_before lines_after
    else
      match read_file_lines (some lines) 1 file_line_count with
      | none => none
      | some context =>
        if context = "" then none
        else
          let ls := pySplitNl context
          some (pyJoinNl (ls.enum.map (fun p =>
            if highlight_issue_line && p.1 + 1 = line_number then
              Nat.repr (p.1 + 1) ++ ": >>> " ++ p.2 ++ " <<<"
            else
              Nat.repr (p.1 + 1) ++ ": " ++ p.2)))

-- a trailing empty line is silently dropped by the newline rstrip

/-- A 20-line file that is one single function from its first to its last
line; the function-scope fallback of the file-scope strategy returns it
whole. -/
def wholeFileFn : List String :=
  ["int main() \x7b", "a", "b", "c", "d", "e", "f", "g", "h", "i",
   "j", "k", "l", "m", "n", "o", "p", "q", "r", "\x7d"]

/-! Embedding of ContextBuilder._find_includes and ._find_include_file -/

/-- The `_std_headers` set of `ContextBuilder.__init__` (the Python set
literal contains `cstdlib`, `cstring` and `ctime` twice; list membership is
the same). -/
def std_headers : List String :=
  ["iostream", "vector", "string", "map", "set", "list", "deque",
   "queue", "stack", "algorithm", "memory", "utility", "tuple",
   "array", "chrono", "cmath", "cstdlib", "cstring", "ctime",
   "fstream", "iomanip", "ios", "iosfwd", "istream", "ostream",
   "sstream", "streambuf", "cassert", "cctype", "cerrno", "cfloat",
   "climits", "clocale", "cstdarg", "cstddef", "cstdio", "cstdlib",
   "cstring", "ctime", "cwchar", "cwctype", "exception", "functional",
   "limits", "locale", "new", "numeric", "random", "ratio", "stdexcept",
   "typeinfo", "type_traits", "unordered_map", "unordered_set"]

/-- Model of `include.split('/')[-1].split('.')[0]`: the last path component of the
include target, truncated at its first dot.  This is the key the source
tests against `_std_headers`. -/
def firstDotKey (s : String) : String :=
  String.mk (((splitCharL '/' s.data).getLastD []).takeWhile (fun c => c ≠ '.'))

/-- One attempted match of `#include\s*[<"]([^>"]+)[>"]` at the head of the
char list: the literal `#include`, optional whitespace, an opening `<` or
`"`, a non-empty maximal run free of `>` and `"` (the captured group), and
a closing `>` or `"`.  Returns the captured group and the rest of the text
after the match. -/
def tryInclude (l : List Char) : Option (String × List Char) :=
  if isPre "#include".data l then
    let r1 := (l.drop 8).dropWhile pyIsSpace
    match r1 with
    | [] => none
    | c :: r2 =>
      if c = '<' || c = '"' then
        let grp := r2.takeWhile (fun d => !(d = '>' || d = '"'))
        let r3 := r2.dropWhile (fun d => !(d = '>' || d = '"'))
        if grp.isEmpty then none
        else
          match r3 with
          | [] => none
          | d :: r4 => if d = '>' || d = '"' then some (String.mk grp, r4) else none
      else none
  else none

/-- The `re.finditer` loop of `_find_includes`, keeping a match only when
the predicate `p` accepts it (the source keeps an include when its
`firstDotKey` is not a standard header).  Scans left to right, resuming
after each match; fuel `l.length` bounds the character positions. -/
def scanIncludesP (p : String → Bool) : Nat → List Char → List String
  | 0, _ => []
  | fuel + 1, l =>
    match l with
    | [] => []
    | c :: cs =>
      match tryInclude (c :: cs) with
      | some (inc, rest) =>
        if p inc then inc :: scanIncludesP p fuel rest
        else scanIncludesP p fuel rest
      | none => scanIncludesP p fuel cs

/-- Model of `_find_includes(content)`: every `#include` target whose
first-dot-truncated basename is not in `_std_headers`, in order of
occurrence. -/
def find_includes (content : String) : List String :=
  scanIncludesP (fun inc => !(std_headers.contains (firstDotKey inc)))
    content.data.length content.data

/-- All `#include` targets of the content, with no standard-header
filtering (used to state what exactly `_find_includes` excludes). -/
def all_includes (content : String) : List String :=
  scanIncludesP (fun _ => true) content.data.length content.data

/-- Model of `os.path.splitext(p)[0]` on one path component: cut at the last dot,
unless every character before that dot is itself a dot (so `.h` and `..h`
keep their dots and have no extension). -/
def splitextComp (comp : List Char) : List Char :=
  let r := comp.reverse
  let ext := r.takeWhile (fun c => c ≠ '.')
  if ext.length = r.length then comp
  else
    let before := r.drop (ext.length + 1)
    if before.all (fun c => c = '.') then comp
    else comp.take (comp.length - ext.length - 1)

/-- Join char-list pieces with the single separator character `c`. -/
def joinSepC (c : Char) : List (List Char) → List Char
  | [] => []
  | [x] => x
  | x :: y :: t => x ++ c :: joinSepC c (y :: t)

/-- Model of `os.path.splitext(include)[0]`: the extension is split off the last
path component only. -/
def splitextBase (s : String) : String :=
  let comps := splitCharL '/' s.data
  String.mk (joinSepC '/' (comps.dropLast ++ [splitextComp (comps.getLastD [])]))

/-- The lazily built `_file_cache`: project-relative path ↦ the
`(root, file)` pair stored by `_build_file_cache`. -/
def lookupCache (cache : List (String × String × String)) (key : String) :
    Option (String × String) :=
  (cache.find? (fun t => t.1 = key)).map (fun t => t.2)

/-- Model of `os.path.join(root, file)` for the absolute roots produced by
`os.walk` (no trailing separator). -/
def pathJoin (root file : String) : String :=
  root ++ "/" ++ file

/-- Model of `_find_include_file(include)`: exact relative-path match against the
file cache first, then the dot-split base with each known source/header
extension. -/
def find_include_file (cache : List (String × String × String))
    (inc : String) : Option String :=
  match lookupCache cache inc with
  | some rf => some (pathJoin rf.1 rf.2)
  | none =>
    let base := splitextBase inc
    (List.filterMap (fun e =>
        (lookupCache cache (base ++ e)).map (fun rf => pathJoin rf.1 rf.2))
      [".h", ".hpp", ".cpp", ".cc", ".c"]).head?

/-! Embedding of ContextBuilder._build_file_with_includes_context -/

/-- Modelled from the spec: the prompt template file
`prompts/file_with_includes_context.txt` read by
`_build_file_with_includes_context` is not part of src/.  Spec §4.6 step 7
says the composite result is "the primary file's annotated content plus a
concatenation of labeled included-file bodies", so the template branch is
modelled as a formatting that embeds both the primary content and the
joined included-file context. -/
def template_format (main_file : String) (line_number : Nat)
    (source_code_context included_files_context : String) : String :=
  "Main File: " ++ main_file ++ "\nLine: " ++ Nat.repr line_number ++
  "\n\nSource Code:\n" ++ source_code_context ++
  "\n\nIncluded Files:\n" ++ included_files_context

/-- The labeled block appended for one resolved, readable include. -/
def includeBlock (path content : String) : String :=
  "\nIncluded File: " ++ path ++ "\n" ++ content

/-- Model of `_build_file_with_includes_context(file_path, line_number)`: re-validate
the path, read the whole primary file (falsy content fails), extract the
non-standard includes, resolve each against the file cache and read it
(silently skipping unresolved, unreadable or empty ones), and assemble the
composite result — through the template when it exists, else through the
fallback f-string (which joins the blocks with `''.join`). -/
def build_file_with_includes_context (safe : Bool) (file_path : String)
    (line_number : Nat) (file : Option (List String))
    (cache : List (String × String × String))
    (readFs : String → Option (List String)) (templateExists : Bool) :
    Option String :=
  if !safe then none
  else
    match readAllLines file with
    | none => none
    | some main_file_content =>
      if main_file_content = "" then none
      else
        let includes := find_includes main_file_content
        let blocks := includes.filterMap (fun inc =>
          match find_include_file cache inc with
          | none => none
          | some p =>
            match readAllLines (readFs p) with
            | none => none
            | some c => if c = "" then none else some (includeBlock p c))
        if templateExists then
          some (template_format file_path line_number main_file_content
            (pyJoinNl blocks))
        else
          some ("Main File: " ++ file_path ++ "\nLine: " ++ Nat.repr line_number ++
            "\n\nSource Code:\n" ++ main_file_content ++
            "\n\nIncluded Files:\n" ++ pyConcat blocks)

/-! Embedding of ContextBuilder.build_context -/

/-- The exceptions `build_context` can raise: the unsupported-strategy
`ValueError`, and the `AttributeError` raised when the `multiagent_scope`
branch looks up `self._build_multiagent_scope_context`, a method that does
not exist (the class only defines `_multiagent_context_builder`). -/
inductive PyError where
  | valueError (msg : String)
  | attributeError
deriving DecidableEq

/-- Discriminator: is the outcome a raised `ValueError`? -/
def isValueError : Except PyError (Option String) → Bool
  | .error (.valueError _) => true
  | _ => false

/-- Model of `ContextBuilder.build_context(file_path, line_number, strategy,
**kwargs)`: validate the path first (unsafe paths return `None` before any
dispatch), then dispatch on the strategy name; the five recognized names
route to their builders (`multiagent_scope` aborts with `AttributeError`
because the method it names does not exist), and every other name raises
the unsupported-strategy `ValueError`. -/
def build_context (fs : PyFS) (project_root file_path : String)
    (file : Option (List String)) (line_number : Nat) (strategy : String)
    (lines_before lines_after max_lines : Nat) (highlight_issue_line : Bool)
    (cache : List (String × String × String))
    (readFs : String → Option (List String)) (templateExists : Bool) :
    Except PyError (Option String) :=
  if !(is_path_safe fs file_path project_root) then .ok none
  else if strategy = "fixed_lines" then
    .ok (build_fixed_lines_context file line_number lines_before lines_after)
  else if strategy = "function_scope" then
    .ok (build_function_scope_context file line_number max_lines
      lines_before lines_after)
  else if strategy = "file_scope" then
    .ok (build_file_scope_context file line_number max_lines
      highlight_issue_line lines_before lines_after)
  else if strategy = "file_with_includes" then
    .ok (build_file_with_includes_context
      (is_path_safe fs file_path project_root) file_path line_number file
      cache readFs templateExists)
  else if strategy = "multiagent_scope" then
    .error .attributeError
  else
    .error (.valueError ("Unsupported context building strategy: " ++ strategy))

/-- A filesystem oracle on which every path is safe. -/
def allSafeFS : PyFS :=
  { abspath := fun s => some s
    path_exists := fun _ => some true
    isfile := fun _ => some true
    islink := fun _ => some false }


/-- The main file of the include-graph scenario: one standard header and
two resolvable project-local headers. -/
def incMainFile : List String :=
  ["#include <iostream>", "#include \"a.h\"", "#include \"b.h\"",
   "int main() - return 0"]

/-- The cache of the include-graph scenario; it even contains an entry the
standard header could resolve through, to show the exclusion happens
before resolution. -/
def incCache : List (String × String × String) :=
  [("a.h", "R", "a.h"), ("b.h", "R", "b.h"), ("iostream", "R", "iostream.h")]

/-- The filesystem of the include-graph scenario. -/
def incReadFs : String → Option (List String) :=
  fun p =>
    if p = "R/a.h" then some ["ACONTENT"]
    else if p = "R/b.h" then some ["BCONTENT"]
    else if p = "R/iostream.h" then some ["STDCONTENT"]
    else none

/-! Lemmas about the string primitives -/

theorem strMkData (s : String) : String.mk s.data = s := by
  cases s; rfl

theorem splitCharL_ne_nil (c : Char) (l : List Char) : splitCharL c l ≠ [] := by
  induction l with
  | nil => simp [splitCharL]
  | cons x xs ih =>
    simp only [splitCharL]
    split
    · simp
    · cases h : splitCharL c xs with
      | nil => simp
      | cons a t => simp [h]

theorem pySplitNl_ne_nil (s : String) : pySplitNl s ≠ [] := by
  simp [pySplitNl, splitCharL_ne_nil]

theorem splitCharL_of_not_mem (c : Char) (x : List Char) (h : c ∉ x) :
    splitCharL c x = [x] := by
  induction x with
  | nil => rfl
  | cons a as ih =>
    simp only [List.mem_cons, not_or] at h
    simp only [splitCharL]
    rw [ih h.2]
    simp [Ne.symm h.1]

theorem splitCharL_append_cons (c : Char) (x r : List Char) (h : c ∉ x) :
    splitCharL c (x ++ c :: r) = x :: splitCharL c r := by
  induction x with
  | nil => simp [splitCharL]
  | cons a as ih =>
    simp only [List.mem_cons, not_or] at h
    simp only [List.cons_append, splitCharL]
    have ih2 : splitCharL c (as.append (c :: r)) = as :: splitCharL c r := ih h.2
    rw [ih2]
    simp [Ne.symm h.1]

theorem splitCharL_joinNlC :
    ∀ (ls : List (List Char)), (∀ l ∈ ls, '\n' ∉ l) → ls ≠ [] →
      splitCharL '\n' (joinNlC ls) = ls
  | [], _, hne => absurd rfl hne
  | [x], h, _ => splitCharL_of_not_mem _ _ (h x (by simp))
  | x :: y :: t, h, _ => by
    rw [show joinNlC (x :: y :: t) = x ++ '\n' :: joinNlC (y :: t) from rfl]
    rw [splitCharL_append_cons _ _ _ (h x (by simp))]
    rw [splitCharL_joinNlC (y :: t) (fun l hl => h l (by simp [hl])) (by simp)]

theorem dropTrailNl_of_not_mem (l : List Char) (h : '\n' ∉ l) :
    dropTrailNl l = l := by
  unfold dropTrailNl
  rw [List.dropWhile_eq_self_iff.2, List.reverse_reverse]
  intro hl
  have hm : l.reverse.get ⟨0, hl⟩ ∈ l := by
    rw [← List.mem_reverse]
    exact List.get_mem _ _ _
  simp only [decide_eq_true_eq]
  intro he
  exact h (he ▸ hm)

theorem dropTrailNl_append (a b : List Char) (h : dropTrailNl b ≠ []) :
    dropTrailNl (a ++ b) = a ++ dropTrailNl b := by
  unfold dropTrailNl at *
  rw [List.reverse_append, List.dropWhile_append]
  have hb : ¬(b.reverse.dropWhile (fun c => c = '\n')).isEmpty = true := by
    intro hE
    exact h (by rw [List.isEmpty_iff.1 hE]; rfl)
  rw [if_neg hb, List.reverse_append, List.reverse_reverse]

theorem joinNlC_ne_nil :
    ∀ ls : List (List Char), ls ≠ [] → ls.getLast? ≠ some [] → joinNlC ls ≠ []
  | [], hne, _ => absurd rfl hne
  | [x], _, hl => by
    simp only [List.getLast?_singleton, ne_eq, Option.some.injEq] at hl
    simpa [joinNlC] using hl
  | _ :: _ :: _, _, _ => by
    simp [joinNlC, List.append_eq_nil]

theorem dropTrail_joinNlC :
    ∀ ls : List (List Char), (∀ l ∈ ls, '\n' ∉ l) → ls ≠ [] →
      ls.getLast? ≠ some [] → dropTrailNl (joinNlC ls) = joinNlC ls
  | [], _, hne, _ => absurd rfl hne
  | [x], h, _, _ => dropTrailNl_of_not_mem x (h x (by simp))
  | x :: y :: t, h, _, hl => by
    have hl' : (y :: t).getLast? ≠ some [] := by
      rwa [List.getLast?_cons_cons] at hl
    have hJ : dropTrailNl (joinNlC (y :: t)) = joinNlC (y :: t) :=
      dropTrail_joinNlC (y :: t) (fun l hx => h l (by simp [hx])) (by simp) hl'
    have hJne : joinNlC (y :: t) ≠ [] := joinNlC_ne_nil (y :: t) (by simp) hl'
    have hdw : (joinNlC (y :: t)).reverse.dropWhile (fun c => c = '\n') =
        (joinNlC (y :: t)).reverse := by
      have := congrArg List.reverse hJ
      unfold dropTrailNl at this
      rwa [List.reverse_reverse] at this
    have h1 : dropTrailNl ('\n' :: joinNlC (y :: t)) = '\n' :: joinNlC (y :: t) := by
      unfold dropTrailNl
      rw [show ('\n' :: joinNlC (y :: t)).reverse =
            (joinNlC (y :: t)).reverse ++ ['\n'] from by simp]
      rw [List.dropWhile_append, hdw]
      have : ¬((joinNlC (y :: t)).reverse.isEmpty = true) := by
        simp [List.isEmpty_iff, hJne]
      rw [if_neg this, List.reverse_append, List.reverse_reverse]
      rfl
    rw [show joinNlC (x :: y :: t) = x ++ '\n' :: joinNlC (y :: t) from rfl]
    rw [dropTrailNl_append _ _ (by rw [h1]; simp), h1]

/-- Predicate `noNl s` : the modelled line content `s` contains no newline. -/
def noNl (s : String) : Prop := '\n' ∉ s.data

instance noNl.decidable (s : String) : Decidable (noNl s) :=
  inferInstanceAs (Decidable ('\n' ∉ s.data))

theorem rstrip_pyJoinNl (ls : List String) (h : ∀ s ∈ ls, noNl s)
    (h1 : ls ≠ []) (h2 : ls.getLast? ≠ some "") :
    rstripNl (pyJoinNl ls) = pyJoinNl ls := by
  show String.mk (dropTrailNl (joinNlC (ls.map String.data))) = _
  rw [dropTrail_joinNlC]
  · rfl
  · intro l hl
    obtain ⟨s, hs, rfl⟩ := List.mem_map.1 hl
    exact h s hs
  · simpa using h1
  · rw [List.getLast?_map]
    intro hc
    rcases hm : ls.getLast? with _ | s
    · rw [hm] at hc; simp at hc
    · rw [hm] at hc
      simp only [Option.map_some', Option.some.injEq] at hc
      exact h2 (by rw [hm]; exact congrArg some (String.ext hc))

theorem pySplit_pyJoin (ls : List String) (h : ∀ s ∈ ls, noNl s) (h1 : ls ≠ []) :
    pySplitNl (pyJoinNl ls) = ls := by
  show (splitCharL '\n' (joinNlC (ls.map String.data))).map String.mk = ls
  rw [splitCharL_joinNlC]
  · rw [List.map_map]
    exact List.map_id'' strMkData ls
  · intro l hl
    obtain ⟨s, hs, rfl⟩ := List.mem_map.1 hl
    exact h s hs
  · simpa using h1

theorem pyJoinNl_length_pos (l : List String) (h1 : l ≠ [])
    (h2 : ∀ x ∈ l, 0 < x.length) : 0 < (pyJoinNl l).length := by
  match l with
  | [x] =>
    have : pyJoinNl [x] = x := by
      show String.mk (joinNlC [x.data]) = x
      exact strMkData x
    rw [this]
    exact h2 x (by simp)
  | x :: y :: t =>
    show 0 < (joinNlC (x.data :: y.data :: (t.map String.data))).length
    rw [show joinNlC (x.data :: y.data :: (t.map String.data)) =
          x.data ++ '\n' :: joinNlC (y.data :: t.map String.data) from rfl]
    simp

theorem read_file_lines_some (lines : List String) (s e : Nat)
    (wf : ∀ l ∈ lines, noNl l)
    (hne : (lines.drop (max 1 s - 1)).take
        (min (max (max 1 s) e) lines.length - (max 1 s - 1)) ≠ [])
    (hlast : ((lines.drop (max 1 s - 1)).take
        (min (max (max 1 s) e) lines.length - (max 1 s - 1))).getLast? ≠ some "") :
    read_file_lines (some lines) s e =
      some (pyJoinNl ((lines.drop (max 1 s - 1)).take
        (min (max (max 1 s) e) lines.length - (max 1 s - 1)))) := by
  have hwf : ∀ l ∈ (lines.drop (max 1 s - 1)).take
      (min (max (max 1 s) e) lines.length - (max 1 s - 1)), noNl l := by
    intro l hl
    exact wf l (List.drop_subset _ _ (List.take_subset _ _ hl))
  show some (rstripNl (pyJoinNl _)) = _
  rw [rstrip_pyJoinNl _ hwf hne hlast]

theorem numbered_length_pos (k : Nat) (x : String) :
    0 < (Nat.repr k ++ ": " ++ x).length := by
  rw [String.length_append, String.length_append]
  have h2 : (": " : String).length = 2 := rfl
  omega

theorem build_fixed_isSome_pos (lines : List String) (n B A : Nat) :
    ∃ s, build_fixed_lines_context (some lines) n B A = some s ∧ 0 < s.length := by
  refine ⟨_, rfl, ?_⟩
  apply pyJoinNl_length_pos
  · intro hc
    rw [List.map_eq_nil_iff, List.enum_eq_nil] at hc
    exact pySplitNl_ne_nil _ hc
  · intro x hx
    obtain ⟨p, _, rfl⟩ := List.mem_map.1 hx
    exact numbered_length_pos _ _

theorem build_fixed_eq_some_pos (lines : List String) (n B A : Nat) (s : String)
    (h : build_fixed_lines_context (some lines) n B A = some s) : 0 < s.length := by
  obtain ⟨t, ht, hp⟩ := build_fixed_isSome_pos lines n B A
  rw [ht, Option.some.injEq] at h
  rwa [← h]

theorem scanFwd_lt (wl : List String) (s : Nat) :
    ∀ fuel i bc e, scanFwd wl s fuel i bc = some e → s < e ∧ e < wl.length := by
  intro fuel
  induction fuel with
  | zero => intro i bc e h; simp [scanFwd] at h
  | succ f ih =>
    intro i bc e h
    unfold scanFwd at h
    split at h
    · exact absurd h (by simp)
    · dsimp only at h
      split at h
      · rename_i hlen hcond
        rw [Option.some.injEq] at h
        subst h
        simp only [Bool.and_eq_true, decide_eq_true_eq] at hcond
        omega
      · exact ih _ _ _ h

theorem build_function_scope_some_pos (lines : List String) (n maxL B A : Nat)
    (s : String)
    (h : build_function_scope_context (some lines) n maxL B A = some s) :
    0 < s.length := by
  unfold build_function_scope_context at h
  simp only [read_file_lines] at h
  split at h
  · exact absurd h (by simp)
  · split at h
    · exact build_fixed_eq_some_pos _ _ _ _ _ h
    · split at h
      · exact build_fixed_eq_some_pos _ _ _ _ _ h
      · split at h
        · exact build_fixed_eq_some_pos _ _ _ _ _ h
        · split at h
          · exact build_fixed_eq_some_pos _ _ _ _ _ h
          · rename_i fs hfs fe hfe
            split at h
            · exact build_fixed_eq_some_pos _ _ _ _ _ h
            · rw [Option.some.injEq] at h
              subst h
              apply pyJoinNl_length_pos
              · intro hc
                rw [List.map_eq_nil_iff, List.range_eq_nil] at hc
                have := scanFwd_lt _ _ _ _ _ _ hfe
                omega
              · intro x hx
                obtain ⟨k, _, rfl⟩ := List.mem_map.1 hx
                exact numbered_length_pos _ _

theorem build_file_scope_over_cap (lines : List String) (n maxL B A : Nat)
    (hl : Bool) (h : maxL < lines.length) :
    ∃ s, build_file_scope_context (some lines) n maxL hl B A = some s ∧
      0 < s.length := by
  unfold build_file_scope_context
  dsimp only
  rw [if_pos h]
  cases hf : build_function_scope_context (some lines) n 100 B A with
  | none =>
    obtain ⟨s, hs, hp⟩ := build_fixed_isSome_pos lines n B A
    exact ⟨s, hs, hp⟩
  | some c => exact ⟨c, rfl, build_function_scope_some_pos _ _ _ _ _ _ hf⟩

theorem function_scope_abandon_fallback
    (lines : List String) (line maxL B A : Nat) (wc : String)
    (hwc : read_file_lines (some lines) (max 1 (line - 50)) (line + 200) = some wc)
    (hne : wc ≠ "")
    (hge : max 1 (line - 50) ≤ line)
    (hidx : min 50 (line - max 1 (line - 50)) < (pySplitNl wc).length)
    (hab : scanBack (pySplitNl wc) (min 50 (line - max 1 (line - 50))) 0 = none ∨
      (∃ fs, scanBack (pySplitNl wc) (min 50 (line - max 1 (line - 50))) 0 = some fs ∧
        scanFwd (pySplitNl wc) fs (pySplitNl wc).length fs 0 = none) ∨
      (∃ fs fe, scanBack (pySplitNl wc) (min 50 (line - max 1 (line - 50))) 0 = some fs ∧
        scanFwd (pySplitNl wc) fs (pySplitNl wc).length fs 0 = some fe ∧
        maxL < fe - fs)) :
    build_function_scope_context (some lines) line maxL B A =
      build_fixed_lines_context (some lines) line B A := by
  unfold build_function_scope_context
  dsimp only
  rw [hwc]
  dsimp only
  rw [if_neg hne, if_neg (not_lt.mpr hge), if_neg (not_le.mpr hidx)]
  rcases hab with h1 | ⟨fs, h1, h2⟩ | ⟨fs, fe, h1, h2, h3⟩
  · rw [h1]
  · rw [h1]
    dsimp only
    rw [h2]
  · rw [h1]
    dsimp only
    rw [h2]
    dsimp only
    rw [if_pos h3]

theorem slice_getElem (lines : List String) (a b k : Nat) (ha : 1 ≤ a)
    (_hL : b ≤ lines.length)
    (hk : k < ((lines.drop (a - 1)).take (b - (a - 1))).length) :
    ((lines.drop (a - 1)).take (b - (a - 1)))[k] = lines.getD (a - 1 + k) "" := by
  have h1 : k < (lines.drop (a - 1)).length := by
    simp only [List.length_take, List.length_drop] at hk
    simp only [List.length_drop]
    omega
  have h2 : a - 1 + k < lines.length := by
    simp only [List.length_drop] at h1
    omega
  rw [List.getElem_take, List.getElem_drop, List.getD_eq_getElem _ _ h2]

theorem slice_length (lines : List String) (a b : Nat) (ha : 1 ≤ a) (hb : a ≤ b)
    (_hL : b ≤ lines.length) :
    ((lines.drop (a - 1)).take (b - (a - 1))).length = b - (a - 1) := by
  simp only [List.length_take, List.length_drop]
  omega

theorem read_window (lines : List String) (a b : Nat)
    (wf : ∀ l ∈ lines, noNl l) (ha : 1 ≤ a) (hb : a ≤ b) (hL : b ≤ lines.length)
    (hlast : lines.getD (b - 1) "" ≠ "") :
    read_file_lines (some lines) a b =
      some (pyJoinNl ((lines.drop (a - 1)).take (b - (a - 1)))) := by
  have e1 : max 1 a = a := Nat.max_eq_right ha
  have e2 : max a b = b := Nat.max_eq_right hb
  have e3 : min b lines.length = b := Nat.min_eq_left hL
  have hlen : ((lines.drop (a - 1)).take (b - (a - 1))).length = b - (a - 1) :=
    slice_length lines a b ha hb hL
  have hne : (lines.drop (a - 1)).take (b - (a - 1)) ≠ [] := by
    intro hc
    rw [hc] at hlen
    simp only [List.length_nil] at hlen
    omega
  have hlast' : ((lines.drop (a - 1)).take (b - (a - 1))).getLast? ≠ some "" := by
    rw [List.getLast?_eq_getElem?, hlen]
    have hidx : b - (a - 1) - 1 < ((lines.drop (a - 1)).take (b - (a - 1))).length := by
      rw [hlen]; omega
    rw [List.getElem?_eq_getElem hidx]
    rw [slice_getElem lines a b _ ha hL hidx]
    intro hc
    rw [Option.some.injEq] at hc
    apply hlast
    rw [show a - 1 + (b - (a - 1) - 1) = b - 1 from by omega] at hc
    exact hc
  have := read_file_lines_some lines a b wf
  rw [e1, e2, e3] at this
  exact this hne hlast'

theorem enum_map_eq_range_map (l : List String) (f : Nat × String → String) :
    l.enum.map f = (List.range l.length).map (fun i => f (i, l.getD i "")) := by
  apply List.ext_getElem
  · simp
  · intro n h1 h2
    simp only [List.getElem_map, List.getElem_enum, List.getElem_range]
    have hn : n < l.length := by simpa using h2
    rw [List.getD_eq_getElem _ _ hn]

theorem fixed_lines_window_exact (lines : List String) (line B A : Nat)
    (wf : ∀ l ∈ lines, noNl l) (h1 : B < line) (h2 : line + A ≤ lines.length)
    (h3 : lines.getD (line + A - 1) "" ≠ "") :
    build_fixed_lines_context (some lines) line B A =
      some (pyJoinNl ((List.range (B + A + 1)).map
        (fun k => Nat.repr (line - B + k) ++ ": " ++ lines.getD (line - B - 1 + k) ""))) := by
  have hs : max 1 (line - B) = line - B := Nat.max_eq_right (by omega)
  have e4 : line + A - (line - B - 1) = B + A + 1 := by omega
  have hread := read_window lines (line - B) (line + A) wf (by omega) (by omega) h2 h3
  rw [e4] at hread
  have hslen : ((lines.drop (line - B - 1)).take (B + A + 1)).length = B + A + 1 := by
    have := slice_length lines (line - B) (line + A) (by omega) (by omega) h2
    rwa [e4] at this
  have hsne : (lines.drop (line - B - 1)).take (B + A + 1) ≠ [] := by
    intro hc
    rw [hc] at hslen
    simp at hslen
  have hswf : ∀ l ∈ (lines.drop (line - B - 1)).take (B + A + 1), noNl l := by
    intro l hl
    exact wf l (List.drop_subset _ _ (List.take_subset _ _ hl))
  unfold build_fixed_lines_context
  dsimp only
  rw [hs, hread]
  dsimp only
  rw [pySplit_pyJoin _ hswf hsne]
  rw [enum_map_eq_range_map]
  rw [hslen]
  congr 2
  apply List.map_congr_left
  intro i hi
  rw [List.mem_range] at hi
  have hik : i < ((lines.drop (line - B - 1)).take (B + A + 1)).length := by
    rw [hslen]; exact hi
  rw [List.getD_eq_getElem _ _ hik]
  have hidx2 : line - B - 1 + i < lines.length := by omega
  dsimp only
  congr 1
  rw [List.getElem_take, List.getElem_drop, List.getD_eq_getElem _ _ hidx2]

theorem map_data_getLast_ne (ls : List String) (h : ls.getLast? ≠ some "") :
    (ls.map String.data).getLast? ≠ some [] := by
  rw [List.getLast?_map]
  intro hc
  rcases hm : ls.getLast? with _ | s
  · rw [hm] at hc; simp at hc
  · rw [hm] at hc
    simp only [Option.map_some', Option.some.injEq] at hc
    exact h (by rw [hm]; exact congrArg some (String.ext hc))

theorem getLast_ne_of_getD (ls : List String) (h0 : ls ≠ [])
    (h : ls.getD (ls.length - 1) "" ≠ "") : ls.getLast? ≠ some "" := by
  have hpos : 0 < ls.length := List.length_pos.2 h0
  have hlen : ls.length - 1 < ls.length := by omega
  rw [List.getLast?_eq_getElem?, List.getElem?_eq_getElem hlen]
  intro hc
  rw [Option.some.injEq] at hc
  apply h
  rw [List.getD_eq_getElem _ _ hlen]
  exact hc

theorem pyJoinNl_ne_empty (ls : List String) (h0 : ls ≠ [])
    (hlast : ls.getLast? ≠ some "") : pyJoinNl ls ≠ "" := by
  intro hc
  have hd : (pyJoinNl ls).data = [] := by rw [hc]
  exact joinNlC_ne_nil (ls.map String.data) (by simpa using h0)
    (map_data_getLast_ne ls hlast) hd

theorem read_whole_file (lines : List String) (wf : ∀ l ∈ lines, noNl l)
    (h0 : lines ≠ [])
    (hlast : lines.getD (lines.length - 1) "" ≠ "") :
    read_file_lines (some lines) 1 lines.length = some (pyJoinNl lines) := by
  have hpos : 0 < lines.length := List.length_pos.2 h0
  have := read_window lines 1 lines.length wf (le_refl 1) hpos (le_refl _) hlast
  rw [show (1 : Nat) - 1 = 0 from rfl, List.drop_zero, Nat.sub_zero,
    List.take_length] at this
  exact this

theorem file_scope_whole_file_exact (lines : List String) (line maxL B A : Nat)
    (hlbool : Bool)
    (wf : ∀ l ∈ lines, noNl l) (h0 : lines ≠ [])
    (hlast : lines.getD (lines.length - 1) "" ≠ "")
    (hcap : lines.length ≤ maxL) :
    build_file_scope_context (some lines) line maxL hlbool B A =
      some (pyJoinNl ((List.range lines.length).map (fun i =>
        if hlbool = true ∧ i + 1 = line then
          Nat.repr (i + 1) ++ ": >>> " ++ lines.getD i "" ++ " <<<"
        else Nat.repr (i + 1) ++ ": " ++ lines.getD i ""))) := by
  unfold build_file_scope_context
  dsimp only
  rw [if_neg (not_lt.mpr hcap)]
  rw [read_whole_file lines wf h0 hlast]
  dsimp only
  rw [if_neg (pyJoinNl_ne_empty lines h0 (getLast_ne_of_getD lines h0 hlast))]
  rw [pySplit_pyJoin lines wf h0, enum_map_eq_range_map]
  congr 2
  apply List.map_congr_left
  intro i hi
  dsimp only
  simp only [Bool.and_eq_true, decide_eq_true_eq]

theorem scanIncludesP_filter (p : String → Bool) :
    ∀ fuel l, scanIncludesP p fuel l =
      (scanIncludesP (fun _ => true) fuel l).filter p := by
  intro fuel
  induction fuel with
  | zero => intro l; rfl
  | succ f ih =>
    intro l
    cases l with
    | nil => rfl
    | cons c cs =>
      simp only [scanIncludesP]
      cases h : tryInclude (c :: cs) with
      | none => exact ih cs
      | some pr =>
        obtain ⟨inc, rest⟩ := pr
        cases hp : p inc
        · simp [hp, ih rest]
        · simp [hp, ih rest]

theorem pyJoinNl_cons_cons (x y : String) (t : List String) :
    pyJoinNl (x :: y :: t) = x ++ "\n" ++ pyJoinNl (y :: t) := by
  apply String.ext
  show x.data ++ '\n' :: joinNlC (y.data :: t.map String.data) = _
  simp only [String.data_append, List.append_assoc, List.singleton_append]
  rfl

theorem pyJoinNl_singleton (x : String) : pyJoinNl [x] = x := by
  apply String.ext
  rfl

theorem mem_pyJoinNl_infix (l : List String) (x : String) (h : x ∈ l) :
    ∃ p q, pyJoinNl l = p ++ x ++ q := by
  induction l with
  | nil => cases h
  | cons a t ih =>
    rcases List.mem_cons.1 h with rfl | hmem
    · cases t with
      | nil =>
        refine ⟨"", "", ?_⟩
        rw [pyJoinNl_singleton]
        simp
      | cons b t' =>
        refine ⟨"", "\n" ++ pyJoinNl (b :: t'), ?_⟩
        rw [pyJoinNl_cons_cons]
        simp [String.append_assoc]
    · cases t with
      | nil => cases hmem
      | cons b t' =>
        obtain ⟨p, q, hpq⟩ := ih hmem
        refine ⟨a ++ "\n" ++ p, q, ?_⟩
        rw [pyJoinNl_cons_cons, hpq]
        simp [String.append_assoc]

theorem foldl_append_eq (l : List String) :
    ∀ acc, l.foldl (fun a b => a ++ b) acc = acc ++ pyConcat l := by
  induction l with
  | nil =>
    intro acc
    show acc = acc ++ ""
    rw [String.append_empty]
  | cons a t ih =>
    intro acc
    show t.foldl (fun a b => a ++ b) (acc ++ a) = acc ++ pyConcat (a :: t)
    rw [ih (acc ++ a)]
    have h2 : pyConcat (a :: t) = a ++ pyConcat t := by
      show t.foldl (fun a b => a ++ b) ("" ++ a) = a ++ pyConcat t
      rw [ih ("" ++ a), String.empty_append]
    rw [h2, String.append_assoc]

theorem pyConcat_cons (a : String) (l : List String) :
    pyConcat (a :: l) = a ++ pyConcat l := by
  show l.foldl (fun a b => a ++ b) ("" ++ a) = a ++ pyConcat l
  rw [foldl_append_eq l ("" ++ a), String.empty_append]

theorem mem_pyConcat_infix (l : List String) (x : String) (h : x ∈ l) :
    ∃ p q, pyConcat l = p ++ x ++ q := by
  induction l with
  | nil => cases h
  | cons a t ih =>
    rcases List.mem_cons.1 h with rfl | hmem
    · refine ⟨"", pyConcat t, ?_⟩
      rw [pyConcat_cons]
      simp
    · obtain ⟨p, q, hpq⟩ := ih hmem
      refine ⟨a ++ p, q, ?_⟩
      rw [pyConcat_cons, hpq]
      simp [String.append_assoc]

theorem file_with_includes_contains (file_path : String) (line : Nat)
    (mainFile : Option (List String)) (cache : List (String × String × String))
    (readFs : String → Option (List String)) (templateExists : Bool)
    (mc : String) (hm : readAllLines mainFile = some mc) (hne : mc ≠ "")
    (inc : String) (hinc : inc ∈ find_includes mc)
    (pth : String) (hp : find_include_file cache inc = some pth)
    (c : String) (hc : readAllLines (readFs pth) = some c) (hcne : c ≠ "") :
    ∃ pre post,
      build_file_with_includes_context true file_path line mainFile cache
        readFs templateExists = some (pre ++ includeBlock pth c ++ post) := by
  have hblk : includeBlock pth c ∈ (find_includes mc).filterMap (fun i =>
      match find_include_file cache i with
      | none => none
      | some p =>
        match readAllLines (readFs p) with
        | none => none
        | some cc => if cc = "" then none else some (includeBlock p cc)) := by
    apply List.mem_filterMap.2
    refine ⟨inc, hinc, ?_⟩
    rw [hp]
    dsimp only
    rw [hc]
    dsimp only
    rw [if_neg hcne]
  unfold build_file_with_includes_context
  dsimp only
  rw [hm]
  dsimp only
  rw [if_neg hne]
  cases templateExists with
  | true =>
    obtain ⟨p', q', hpq⟩ := mem_pyJoinNl_infix _ _ hblk
    refine ⟨"Main File: " ++ file_path ++ "\nLine: " ++ Nat.repr line ++
      "\n\nSource Code:\n" ++ mc ++ "\n\nIncluded Files:\n" ++ p', q', ?_⟩
    dsimp only
    unfold template_format
    rw [hpq]
    simp [String.append_assoc]
  | false =>
    obtain ⟨p', q', hpq⟩ := mem_pyConcat_infix _ _ hblk
    refine ⟨"Main File: " ++ file_path ++ "\nLine: " ++ Nat.repr line ++
      "\n\nSource Code:\n" ++ mc ++ "\n\nIncluded Files:\n" ++ p', q', ?_⟩
    dsimp only
    rw [hpq]
    simp [String.append_assoc]

/-! Claim theorems -/

/-- The ten-line scenario file of the spec and the test suite. -/
def tenLineFile : List String :=
  ["Line 1", "Line 2", "Line 3", "Line 4", "Line 5",
   "Line 6", "Line 7", "Line 8", "Line 9", "Line 10"]

/-- The twenty-line plain-text file of the file-scope fallback scenario
(no braces, no semicolons, no function signature). -/
def twentyPlainFile : List String :=
  ["Line 1", "Line 2", "Line 3", "Line 4", "Line 5",
   "Line 6", "Line 7", "Line 8", "Line 9", "Line 10",
   "Line 11", "Line 12", "Line 13", "Line 14", "Line 15",
   "Line 16", "Line 17", "Line 18", "Line 19", "Line 20"]

/-- A filesystem oracle on which every `os.path` call raises. -/
def noneFS : PyFS :=
  { abspath := fun _ => none
    path_exists := fun _ => none
    isfile := fun _ => none
    islink := fun _ => none }

/-- C1 counterexample: `"multiagent_scope"` lies outside the claimed
four-element strategy set, yet `build_context` on a safe, readable path
does not raise the unsupported-strategy `ValueError` for it — the dispatch
has a fifth branch that routes it toward a (nonexistent) extraction
method, aborting with `AttributeError` instead. -/
theorem c1_counterexample :
    ¬("multiagent_scope" ∈ ["fixed_lines", "function_scope", "file_scope",
      "file_with_includes"]) ∧
    is_path_safe allSafeFS "main.cpp" "" = true ∧
    build_context allSafeFS "" "main.cpp" (some ["int x;"]) 1 "multiagent_scope"
      5 5 100 true [] (fun _ => none) false = .error .attributeError ∧
    isValueError (build_context allSafeFS "" "main.cpp" (some ["int x;"]) 1
      "multiagent_scope" 5 5 100 true [] (fun _ => none) false) = false :=
  ⟨by decide, by decide, rfl, rfl⟩

/-- C1 (amended): for every strategy name outside the five-element set
{fixed_lines, function_scope, file_scope, file_with_includes,
multiagent_scope}, `build_context` with a safe path raises the distinct
unsupported-strategy `ValueError` and dispatches to no strategy;
`multiagent_scope` is instead dispatched toward a missing extraction
method (`AttributeError`), not the unsupported-strategy error. -/
theorem c1_unknown_strategy_value_error (fs : PyFS)
    (project_root file_path : String) (file : Option (List String))
    (line_number : Nat) (strategy : String) (B A M : Nat) (hl : Bool)
    (cache : List (String × String × String))
    (readFs : String → Option (List String)) (tmpl : Bool)
    (hsafe : is_path_safe fs file_path project_root = true)
    (hns : strategy ∉ ["fixed_lines", "function_scope", "file_scope",
      "file_with_includes", "multiagent_scope"]) :
    build_context fs project_root file_path file line_number strategy B A M hl
      cache readFs tmpl =
      .error (.valueError ("Unsupported context building strategy: " ++ strategy)) := by
  simp only [List.mem_cons, List.mem_singleton, not_or] at hns
  obtain ⟨h1, h2, h3, h4, h5⟩ := hns
  unfold build_context
  rw [hsafe]
  simp [h1, h2, h3, h4, h5]

/-- Witness for C1's amended theorem at the concrete strategy name
`"invalid_strategy"` used by the spec and the test suite. -/
theorem c1_unknown_strategy_value_error_witness :
    is_path_safe allSafeFS "main.cpp" "" = true ∧
    "invalid_strategy" ∉ ["fixed_lines", "function_scope", "file_scope",
      "file_with_includes", "multiagent_scope"] ∧
    build_context allSafeFS "" "main.cpp" (some ["int x;"]) 1 "invalid_strategy"
      5 5 100 true [] (fun _ => none) false =
      .error (.valueError
        ("Unsupported context building strategy: " ++ "invalid_strategy")) :=
  ⟨by decide, by decide,
    c1_unknown_strategy_value_error allSafeFS "" "main.cpp" (some ["int x;"]) 1
      "invalid_strategy" 5 5 100 true [] (fun _ => none) false
      (by decide) (by decide)⟩

/-- C2 counterexample: a valid request (`line > B`, `line + A ≤ L`) on a
file whose window ends in an empty line returns fewer than `B+A+1` lines —
the trailing empty line of the window is destroyed by the newline rstrip
of the line-range reader. -/
theorem c2_counterexample :
    1 < 3 ∧ 3 + 1 ≤ (["a", "b", "c", ""] : List String).length ∧
    build_fixed_lines_context (some ["a", "b", "c", ""]) 3 1 1 =
      some "2: b\n3: c" ∧
    (pySplitNl "2: b\n3: c").length = 2 ∧ 2 ≠ 1 + 1 + 1 := by
  refine ⟨?_, ?_, ?_, ?_, ?_⟩ <;> decide

/-- C2 (amended): for every readable file, strategy fixed_lines with
`line > B` and `line + A ≤ L`, and a non-empty line at `line + A` (the
last line of the window — trailing empty window lines are dropped by the
newline rstrip), the result is exactly the `B+A+1` newline-separated
lines numbered `line−B` … `line+A`, each prefixed with its absolute
1-based number and `": "`; in the concrete ten-line scenario the result
is exactly lines 3–7. -/
theorem c2_fixed_window_exact (lines : List String) (line B A : Nat)
    (wf : ∀ l ∈ lines, noNl l) (h1 : B < line) (h2 : line + A ≤ lines.length)
    (h3 : lines.getD (line + A - 1) "" ≠ "") :
    build_fixed_lines_context (some lines) line B A =
      some (pyJoinNl ((List.range (B + A + 1)).map
        (fun k => Nat.repr (line - B + k) ++ ": " ++
          lines.getD (line - B - 1 + k) ""))) ∧
    build_fixed_lines_context (some tenLineFile) 5 2 2 =
      some "3: Line 3\n4: Line 4\n5: Line 5\n6: Line 6\n7: Line 7" :=
  ⟨fixed_lines_window_exact lines line B A wf h1 h2 h3, by decide⟩

/-- Witness for C2's amended theorem at the concrete ten-line scenario. -/
theorem c2_fixed_window_exact_witness :
    (∀ l ∈ tenLineFile, noNl l) ∧ 2 < 5 ∧ 5 + 2 ≤ tenLineFile.length ∧
    tenLineFile.getD (5 + 2 - 1) "" ≠ "" ∧
    (build_fixed_lines_context (some tenLineFile) 5 2 2 =
      some (pyJoinNl ((List.range (2 + 2 + 1)).map
        (fun k => Nat.repr (5 - 2 + k) ++ ": " ++
          tenLineFile.getD (5 - 2 - 1 + k) ""))) ∧
    build_fixed_lines_context (some tenLineFile) 5 2 2 =
      some "3: Line 3\n4: Line 4\n5: Line 5\n6: Line 6\n7: Line 7") :=
  ⟨by decide, by decide, by decide, by decide,
    c2_fixed_window_exact tenLineFile 5 2 2 (by decide) (by decide)
      (by decide) (by decide)⟩

/-- C3 counterexample: on a readable file whose extraction window is
entirely empty lines, the window content is the empty string, the
function-scope strategy returns the unavailable marker without running
any fallback, and yet the fixed-window strategy on the same readable file
succeeds — refuting "function_scope returns an unavailable result only
when the underlying file is truly unreadable". -/
theorem c3_counterexample :
    build_function_scope_context (some ["", ""]) 1 100 5 5 = none ∧
    build_fixed_lines_context (some ["", ""]) 1 5 5 = some "1: " := by
  refine ⟨?_, ?_⟩ <;> decide

/-- C3 (amended): whenever the function-scope strategy abandons — no
function start found by the backward scan, no closing brace returning the
depth to zero in the forward scan, or a discovered span exceeding
`max_lines` — its result equals the fixed-window strategy on the same
file, target line and passed-through options; but function_scope returns
the unavailable marker not only on an unreadable file: it also does so
when the extraction window's content is empty (see the counterexample).
The unreadable-file case also yields the unavailable marker. -/
theorem c3_function_scope_fallback (lines : List String)
    (line maxL B A : Nat) (wc : String)
    (hwc : read_file_lines (some lines) (max 1 (line - 50)) (line + 200) =
      some wc)
    (hne : wc ≠ "")
    (hge : max 1 (line - 50) ≤ line)
    (hidx : min 50 (line - max 1 (line - 50)) < (pySplitNl wc).length)
    (hab : scanBack (pySplitNl wc) (min 50 (line - max 1 (line - 50))) 0 = none ∨
      (∃ fs, scanBack (pySplitNl wc) (min 50 (line - max 1 (line - 50))) 0 =
          some fs ∧
        scanFwd (pySplitNl wc) fs (pySplitNl wc).length fs 0 = none) ∨
      (∃ fs fe, scanBack (pySplitNl wc) (min 50 (line - max 1 (line - 50))) 0 =
          some fs ∧
        scanFwd (pySplitNl wc) fs (pySplitNl wc).length fs 0 = some fe ∧
        maxL < fe - fs)) :
    build_function_scope_context (some lines) line maxL B A =
      build_fixed_lines_context (some lines) line B A ∧
    build_function_scope_context none line maxL B A = none :=
  ⟨function_scope_abandon_fallback lines line maxL B A wc hwc hne hge hidx hab,
    rfl⟩

/-- Witness for C3's amended theorem: a three-line plain-text file where
the backward scan finds no function signature, so the fixed-window
fallback fires. -/
theorem c3_function_scope_fallback_witness :
    (read_file_lines (some ["Line 1", "Line 2", "Line 3"])
        (max 1 (2 - 50)) (2 + 200) = some "Line 1\nLine 2\nLine 3") ∧
    ("Line 1\nLine 2\nLine 3" : String) ≠ "" ∧
    max 1 (2 - 50) ≤ 2 ∧
    min 50 (2 - max 1 (2 - 50)) <
      (pySplitNl "Line 1\nLine 2\nLine 3").length ∧
    scanBack (pySplitNl "Line 1\nLine 2\nLine 3")
      (min 50 (2 - max 1 (2 - 50))) 0 = none ∧
    (build_function_scope_context (some ["Line 1", "Line 2", "Line 3"])
        2 100 1 1 =
      build_fixed_lines_context (some ["Line 1", "Line 2", "Line 3"]) 2 1 1 ∧
    build_function_scope_context none 2 100 1 1 = none) :=
  ⟨by decide, by decide, by decide, by decide, by decide,
    c3_function_scope_fallback ["Line 1", "Line 2", "Line 3"] 2 100 1 1
      "Line 1\nLine 2\nLine 3" (by decide) (by decide) (by decide) (by decide)
      (Or.inl (by decide))⟩

/-- C4: `is_path_safe(path, project_root)` returns true iff all four
conditions hold — the resolved absolute path exists, the absolute path
string starts with the absolute project root (string-prefix containment),
the path is a regular file, and it is not a symbolic link — where every
`os.path` call also succeeded (a raised internal error, modelled by a
`none` oracle answer, makes the result false); the function is total, so
no exception ever escapes. -/
theorem c4_is_path_safe_iff (fs : PyFS) (p r : String) :
    is_path_safe fs p r = true ↔
      ∃ ap ar, fs.abspath p = some ap ∧ fs.abspath r = some ar ∧
        fs.path_exists ap = some true ∧ strStarts ap ar = true ∧
        fs.isfile ap = some true ∧ fs.islink ap = some false := by
  constructor
  · intro h
    unfold is_path_safe at h
    split at h
    · exact absurd h (by simp)
    · rename_i ap hap
      split at h
      · exact absurd h (by simp)
      · rename_i ar har
        split at h
        · exact absurd h (by simp)
        · rename_i ex hex
          split at h
          · exact absurd h (by simp)
          · rename_i hnex
            split at h
            · exact absurd h (by simp)
            · rename_i hnst
              split at h
              · exact absurd h (by simp)
              · rename_i f hf
                split at h
                · exact absurd h (by simp)
                · rename_i hnf
                  split at h
                  · exact absurd h (by simp)
                  · rename_i l hl
                    split at h
                    · exact absurd h (by simp)
                    · rename_i hnl
                      refine ⟨ap, ar, hap, har, ?_, ?_, ?_, ?_⟩
                      · rw [hex]
                        congr 1
                        revert hnex
                        cases ex <;> simp
                      · revert hnst
                        cases strStarts ap ar <;> simp
                      · rw [hf]
                        congr 1
                        revert hnf
                        cases f <;> simp
                      · rw [hl]
                        congr 1
                        revert hnl
                        cases l <;> simp
  · rintro ⟨ap, ar, h1, h2, h3, h4, h5, h6⟩
    unfold is_path_safe
    rw [h1]
    dsimp only
    rw [h2]
    dsimp only
    rw [h3]
    simp [h4, h5, h6]

/-- C5 counterexample: the inclusive slice `[1, 2]` of the two-line file
`["a", ""]` holds two lines, but `read_file_lines` strips all trailing
newlines, so the trailing empty line is not preserved: the claimed joined
slice would be `"a\n"`, the code returns `"a"`, which splits back into a
single line. -/
theorem c5_counterexample :
    read_file_lines (some ["a", ""]) 1 2 = some "a" ∧
    pyJoinNl ["a", ""] = "a\n" ∧ ("a" : String) ≠ "a\n" ∧
    (pySplitNl "a").length = 1 ∧ 1 ≠ 2 := by
  refine ⟨?_, ?_, ?_, ?_, ?_⟩ <;> decide

/-- C5 (amended): `read_file_lines` clamps `start_line` to at least 1,
clamps `end_line` to at least `start_line` and then to the file's line
count, and returns the inclusive slice joined with its original line
separators — except that all trailing newline characters are stripped, so
trailing empty lines of the slice are dropped; when the slice's last line
is non-empty the slice is preserved exactly (interior empty lines
included).  An unreadable file returns the unavailable marker rather than
raising. -/
theorem c5_read_file_lines_clamped (lines : List String) (s e : Nat)
    (wf : ∀ l ∈ lines, noNl l)
    (hne : (lines.drop (max 1 s - 1)).take
        (min (max (max 1 s) e) lines.length - (max 1 s - 1)) ≠ [])
    (hlast : ((lines.drop (max 1 s - 1)).take
        (min (max (max 1 s) e) lines.length - (max 1 s - 1))).getLast? ≠
      some "") :
    read_file_lines (some lines) s e =
      some (pyJoinNl ((lines.drop (max 1 s - 1)).take
        (min (max (max 1 s) e) lines.length - (max 1 s - 1)))) ∧
    read_file_lines none s e = none :=
  ⟨read_file_lines_some lines s e wf hne hlast, rfl⟩

/-- Witness for C5's amended theorem: `start_line = 0` clamps to 1 and
`end_line = 5` clamps to the three-line file's length. -/
theorem c5_read_file_lines_clamped_witness :
    (∀ l ∈ (["a", "b", "c"] : List String), noNl l) ∧
    ((["a", "b", "c"] : List String).drop (max 1 0 - 1)).take
        (min (max (max 1 0) 5) (["a", "b", "c"] : List String).length -
          (max 1 0 - 1)) ≠ [] ∧
    (((["a", "b", "c"] : List String).drop (max 1 0 - 1)).take
        (min (max (max 1 0) 5) (["a", "b", "c"] : List String).length -
          (max 1 0 - 1))).getLast? ≠ some "" ∧
    (read_file_lines (some ["a", "b", "c"]) 0 5 =
      some (pyJoinNl (((["a", "b", "c"] : List String).drop (max 1 0 - 1)).take
        (min (max (max 1 0) 5) (["a", "b", "c"] : List String).length -
          (max 1 0 - 1)))) ∧
    read_file_lines none 0 5 = none) :=
  ⟨by decide, by decide, by decide,
    c5_read_file_lines_clamped ["a", "b", "c"] 0 5 (by decide) (by decide)
      (by decide)⟩

/-- C6 counterexample: a readable 20-line file that is a single function
from its first to its last line; with `max_lines = 15` the file-scope
strategy delegates to the function-scope strategy, which extracts the
whole function — all 20 lines — so the result does not have strictly
fewer lines than the full file. -/
theorem c6_counterexample :
    (15 : Nat) < wholeFileFn.length ∧
    (pySplitNl ((build_file_scope_context (some wholeFileFn) 10 15 true 5 5).getD
      "")).length = 20 ∧
    ¬((pySplitNl ((build_file_scope_context (some wholeFileFn) 10 15 true 5
      5).getD "")).length < wholeFileFn.length) := by
  refine ⟨?_, ?_, ?_⟩ <;> decide

/-- C6 (amended): for every readable file whose line count strictly
exceeds `max_lines`, the file-scope strategy returns a non-empty result
(delegating to the function-scope strategy and, on its unavailable
result, to the fixed-window strategy) — but the result is not always
strictly shorter than the file: when the delegated function-scope
extraction finds a function spanning the whole file, the full file is
returned (see the counterexample).  On the concrete 20-line plain-text
file (no braces or semicolons, so the function heuristic abandons) with
`max_lines = 15` the fixed-window fallback yields 11 lines, fewer
than 20. -/
theorem c6_file_scope_fallback_nonempty (lines : List String)
    (line maxL B A : Nat) (hl : Bool) (hcap : maxL < lines.length) :
    (∃ s, build_file_scope_context (some lines) line maxL hl B A = some s ∧
      0 < s.length) ∧
    (pySplitNl ((build_file_scope_context (some twentyPlainFile) 10 15 true 5
      5).getD "")).length = 11 ∧
    11 < twentyPlainFile.length :=
  ⟨build_file_scope_over_cap lines line maxL B A hl hcap, by decide, by decide⟩

/-- Witness for C6's amended theorem at the 20-line plain-text scenario
file with `max_lines = 15`. -/
theorem c6_file_scope_fallback_nonempty_witness :
    (15 : Nat) < twentyPlainFile.length ∧
    ((∃ s, build_file_scope_context (some twentyPlainFile) 10 15 true 5 5 =
        some s ∧ 0 < s.length) ∧
      (pySplitNl ((build_file_scope_context (some twentyPlainFile) 10 15 true 5
        5).getD "")).length = 11 ∧
      11 < twentyPlainFile.length) :=
  ⟨by decide,
    c6_file_scope_fallback_nonempty twentyPlainFile 10 15 5 5 true (by decide)⟩

/-- C7 counterexample: a readable two-line file within the size cap whose
second line is empty; with highlight on and target line 2 the file-scope
strategy returns only one line (the trailing empty line was destroyed by
the newline rstrip of the reader), so not all file lines are returned and
the target line is not wrapped at all. -/
theorem c7_counterexample :
    (["a", ""] : List String).length = 2 ∧
    build_file_scope_context (some ["a", ""]) 2 1000 true 5 5 =
      some "1: a" ∧
    (pySplitNl "1: a").length = 1 ∧ 1 ≠ 2 ∧
    strContains "1: a" " <<<" = false := by
  refine ⟨?_, ?_, ?_, ?_, ?_⟩ <;> decide

/-- C7 (amended): for every readable file whose line count is within
`max_lines`, whose last line is non-empty (trailing empty lines are
otherwise dropped by the reader's newline rstrip — see the
counterexample), and a target line within the file, the file-scope
strategy with highlighting on returns all file lines numbered from 1 with
exactly the target line wrapped in `>>> … <<<`, and with highlighting off
returns every line in plain `"N: text"` form with no line wrapped. -/
theorem c7_file_scope_highlight_exact (lines : List String)
    (line maxL B A : Nat)
    (wf : ∀ l ∈ lines, noNl l) (h0 : lines ≠ [])
    (hlast : lines.getD (lines.length - 1) "" ≠ "")
    (hcap : lines.length ≤ maxL) (hl1 : 1 ≤ line) (hl2 : line ≤ lines.length) :
    (build_file_scope_context (some lines) line maxL true B A =
      some (pyJoinNl ((List.range lines.length).map (fun i =>
        if i + 1 = line then
          Nat.repr (i + 1) ++ ": >>> " ++ lines.getD i "" ++ " <<<"
        else Nat.repr (i + 1) ++ ": " ++ lines.getD i "")))) ∧
    (build_file_scope_context (some lines) line maxL false B A =
      some (pyJoinNl ((List.range lines.length).map (fun i =>
        Nat.repr (i + 1) ++ ": " ++ lines.getD i "")))) := by
  constructor
  · rw [file_scope_whole_file_exact lines line maxL B A true wf h0 hlast hcap]
    congr 2
    apply List.map_congr_left
    intro i _
    simp
  · rw [file_scope_whole_file_exact lines line maxL B A false wf h0 hlast hcap]
    congr 2

/-- Witness for C7's amended theorem at the ten-line scenario file with
target line 5. -/
theorem c7_file_scope_highlight_exact_witness :
    (∀ l ∈ tenLineFile, noNl l) ∧ tenLineFile ≠ [] ∧
    tenLineFile.getD (tenLineFile.length - 1) "" ≠ "" ∧
    tenLineFile.length ≤ 1000 ∧ 1 ≤ 5 ∧ 5 ≤ tenLineFile.length ∧
    ((build_file_scope_context (some tenLineFile) 5 1000 true 5 5 =
      some (pyJoinNl ((List.range tenLineFile.length).map (fun i =>
        if i + 1 = 5 then
          Nat.repr (i + 1) ++ ": >>> " ++ tenLineFile.getD i "" ++ " <<<"
        else Nat.repr (i + 1) ++ ": " ++ tenLineFile.getD i "")))) ∧
    (build_file_scope_context (some tenLineFile) 5 1000 false 5 5 =
      some (pyJoinNl ((List.range tenLineFile.length).map (fun i =>
        Nat.repr (i + 1) ++ ": " ++ tenLineFile.getD i ""))))) :=
  ⟨by decide, by decide, by decide, by decide, by decide, by decide,
    c7_file_scope_highlight_exact tenLineFile 5 1000 5 5 (by decide)
      (by decide) (by decide) (by decide) (by decide) (by decide)⟩

/-- The exclusion key as the claim words it: the include target's basename
without its extension (`os.path.splitext` semantics, cutting at the LAST
dot).  Stated from the spec's words, to be compared with the source's
`firstDotKey`, which cuts at the FIRST dot. -/
def spec_basename_without_extension (s : String) : String :=
  String.mk (splitextComp ((splitCharL '/' s.data).getLastD []))

/-- C8 counterexample: the include target `"iostream.v2.h"` has basename
without extension `"iostream.v2"`, which is not in StandardHeaderSet, so
per the claim it must be kept; the code keys exclusion on the prefix
before the FIRST dot (`"iostream"`, a standard header) and discards it —
`_find_includes` returns the empty list although the claimed filter keeps
the include. -/
theorem c8_counterexample :
    find_includes "#include \"iostream.v2.h\"" = [] ∧
    all_includes "#include \"iostream.v2.h\"" = ["iostream.v2.h"] ∧
    spec_basename_without_extension "iostream.v2.h" = "iostream.v2" ∧
    std_headers.contains "iostream.v2" = false ∧
    (all_includes "#include \"iostream.v2.h\"").filter
      (fun inc => !(std_headers.contains (spec_basename_without_extension inc)))
      = ["iostream.v2.h"] := by
  refine ⟨?_, ?_, ?_, ?_, ?_⟩ <;> decide

/-- C8 (amended): the include-graph strategy excludes exactly those
`#include` targets whose basename truncated at its FIRST dot is in the
fixed StandardHeaderSet (not the basename without its extension — see the
counterexample); the result contains the labeled full content of every
remaining include that resolves against the file cache and is readable
and non-empty; and in the concrete scenario — one standard header plus
two resolvable project-local headers — the result contains both local
headers' content and no content of the standard header, even though the
cache could resolve it. -/
theorem c8_include_graph_exclusion_and_content :
    (∀ content : String, find_includes content =
      (all_includes content).filter
        (fun inc => !(std_headers.contains (firstDotKey inc)))) ∧
    (∀ (file_path : String) (line : Nat) (mainFile : Option (List String))
      (cache : List (String × String × String))
      (readFs : String → Option (List String)) (templateExists : Bool)
      (mc inc pth c : String),
      readAllLines mainFile = some mc → mc ≠ "" →
      inc ∈ find_includes mc → find_include_file cache inc = some pth →
      readAllLines (readFs pth) = some c → c ≠ "" →
      ∃ pre post, build_file_with_includes_context true file_path line mainFile
        cache readFs templateExists =
        some (pre ++ includeBlock pth c ++ post)) ∧
    (strContains ((build_file_with_includes_context true "main.cpp" 4
        (some incMainFile) incCache incReadFs false).getD "") "ACONTENT" = true ∧
    strContains ((build_file_with_includes_context true "main.cpp" 4
        (some incMainFile) incCache incReadFs false).getD "") "BCONTENT" = true ∧
    strContains ((build_file_with_includes_context true "main.cpp" 4
        (some incMainFile) incCache incReadFs false).getD "") "STDCONTENT" =
      false) := by
  refine ⟨?_, ?_, ?_, ?_, ?_⟩
  · intro content
    exact scanIncludesP_filter _ _ _
  · intro file_path line mainFile cache readFs templateExists mc inc pth c
      hm hne hinc hp hc hcne
    exact file_with_includes_contains file_path line mainFile cache readFs
      templateExists mc hm hne inc hinc pth hp c hc hcne
  · set_option maxRecDepth 8000 in decide
  · set_option maxRecDepth 8000 in decide
  · set_option maxRecDepth 8000 in decide

/-- Witness for C8's amended theorem: its containment part applied to the
concrete include-graph scenario and the local header `"a.h"`. -/
theorem c8_include_graph_exclusion_and_content_witness :
    (readAllLines (some incMainFile) =
      some "#include <iostream>\n#include \"a.h\"\n#include \"b.h\"\nint main() - return 0") ∧
    ("#include <iostream>\n#include \"a.h\"\n#include \"b.h\"\nint main() - return 0" : String) ≠ "" ∧
    "a.h" ∈ find_includes
      "#include <iostream>\n#include \"a.h\"\n#include \"b.h\"\nint main() - return 0" ∧
    find_include_file incCache "a.h" = some "R/a.h" ∧
    readAllLines (incReadFs "R/a.h") = some "ACONTENT" ∧
    ("ACONTENT" : String) ≠ "" ∧
    (∃ pre post, build_file_with_includes_context true "main.cpp" 4
      (some incMainFile) incCache incReadFs false =
      some (pre ++ includeBlock "R/a.h" "ACONTENT" ++ post)) :=
  ⟨by decide, by decide, by decide, by decide, by decide, by decide,
    c8_include_graph_exclusion_and_content.2.1 "main.cpp" 4 (some incMainFile)
      incCache incReadFs false
      "#include <iostream>\n#include \"a.h\"\n#include \"b.h\"\nint main() - return 0"
      "a.h" "R/a.h" "ACONTENT" (by decide) (by decide) (by decide) (by decide)
      (by decide) (by decide)⟩

/-- C9: on a readable file the fixed-window strategy always returns a
text result — for every line number and window options it never returns
the unavailable marker and never raises (the embedding is a total
function); the unavailable marker is returned exactly when the underlying
file cannot be opened or decoded. -/
theorem c9_fixed_window_total (lines : List String) (n B A : Nat) :
    (∃ s, build_fixed_lines_context (some lines) n B A = some s) ∧
    build_fixed_lines_context none n B A = none := by
  refine ⟨?_, rfl⟩
  obtain ⟨s, hs, _⟩ := build_fixed_isSome_pos lines n B A
  exact ⟨s, hs⟩

/-- C10: path validation precedes strategy dispatch — for every strategy
string, an unsafe path makes `build_context` return the unavailable
marker without raising, and any raised error (in particular the
unsupported-strategy one) is reachable only when the path passed the
Path Guard. -/
theorem c10_path_guard_before_dispatch (fs : PyFS)
    (project_root file_path : String) (file : Option (List String))
    (line_number : Nat) (strategy : String) (B A M : Nat) (hl : Bool)
    (cache : List (String × String × String))
    (readFs : String → Option (List String)) (tmpl : Bool) :
    (is_path_safe fs file_path project_root = false →
      build_context fs project_root file_path file line_number strategy B A M
        hl cache readFs tmpl = .ok none) ∧
    (∀ e, build_context fs project_root file_path file line_number strategy B A
        M hl cache readFs tmpl = .error e →
      is_path_safe fs file_path project_root = true) := by
  constructor
  · intro h
    unfold build_context
    rw [h]
    rfl
  · intro e he
    by_cases hs : is_path_safe fs file_path project_root = true
    · exact hs
    · rw [Bool.not_eq_true] at hs
      unfold build_context at he
      rw [hs] at he
      exact absurd he (by simp)

/-- Witness for C10 at a filesystem oracle on which every call raises, so
the path is unsafe and `build_context` returns the unavailable marker
even for an unrecognized strategy name. -/
theorem c10_path_guard_before_dispatch_witness :
    is_path_safe noneFS "x" "" = false ∧
    build_context noneFS "" "x" (some ["a"]) 1 "weird" 5 5 100 true []
      (fun _ => none) false = .ok none :=
  ⟨by decide,
    (c10_path_guard_before_dispatch noneFS "" "x" (some ["a"]) 1 "weird" 5 5
      100 true [] (fun _ => none) false).1 (by decide)⟩
